import Mathlib

/-!
Verification of the game runtime core of the Multiplatform Instant Game Engine:
the card/board model with its move/undo engine (`GameplayScene.ts`, `Card.ts`),
the scene transition state machine (`SceneManager.ts`) and the FIT/FILL layout
arithmetic (`LayoutSystem.ts`).

Modelling conventions:
* Card objects are identified by natural-number ids (object identity in the
  source).  The mutable per-card attributes `coveredBy` and `isFaceUp` are
  total maps from ids, carried inside the board state.
* Visual-only data (x/y/angle positions, tweens, textures, text labels) is not
  part of the verified board state; animation callbacks (`onStart`/`onComplete`
  of tweens) that set logical flags are treated as executing with the move,
  which matches the atomic view of a move taken by the specification.
* JavaScript numbers are modelled as exact integers (`Int` for ranks and
  coins) and exact rationals (`ℚ` for layout arithmetic).
-/

/-! ### Card game board state (GameplayScene.ts, entities/Card.ts) -/

/-- The `type` tag of a `GameHistory` record: `'tableau' | 'stock'`. -/
inductive MoveType where
  | tableau : MoveType
  | stock : MoveType
deriving DecidableEq, Repr

/-- A `GameHistory` record (GameplayScene.ts lines 12‑21).  The visual
`originalX/Y/angle` fields are omitted (positions are not board state). -/
structure MoveRecord where
  mtype : MoveType
  playedCard : Nat
  previousWaste : Nat
  flippedCards : List Nat
  coveredCards : List Nat
deriving DecidableEq, Repr

/-- The logical board state of `GameplayScene`: the `tableau` array, the
`stockPile` array (head of the list is the top of the pile, i.e. the last
element of the source array), the single `wasteCard`, the per-card
`coveredBy` lists and `isFaceUp` flags (fields of `Card`), the undo
`history` stack (head = most recent record) and the `coins` counter. -/
structure GameState where
  tableau : List Nat
  stockPile : List Nat
  wasteCard : Nat
  coveredBy : Nat → List Nat
  isFaceUp : Nat → Bool
  history : List MoveRecord
  coins : Int
  rank : Nat → Int

/-- `Card.canPlayOn(wasteRank)` (Card.ts lines 113‑118): uncovered, face up,
and the absolute rank difference to the waste rank is 1 or 12. -/
def canPlayOn (s : GameState) (c : Nat) (wasteRank : Int) : Bool :=
  if 0 < (s.coveredBy c).length || !(s.isFaceUp c) then false
  else
    let diff := (s.rank c - wasteRank).natAbs
    diff == 1 || diff == 12

/-- `GameplayScene.handleCardClick` (lines 168‑205).  If the clicked card
cannot play on the waste card, the move is rejected (no state change, only a
rejection shake).  Otherwise the history record is computed and pushed, the
card is removed from the tableau and becomes the waste card (face up, via
`updateWasteCard`), and every card it covered has it removed from its
`coveredBy` list, flipping face-up those whose list became empty. -/
def handleCardClick (s : GameState) (clickedCard : Nat) : GameState :=
  if !(canPlayOn s clickedCard (s.rank s.wasteCard)) then s
  else
    let coveredCards := s.tableau.filter (fun c => decide (clickedCard ∈ s.coveredBy c))
    let flippedCards := coveredCards.filter
      (fun c => decide ((s.coveredBy c).length = 1 ∧ s.isFaceUp c = false))
    let newCoveredBy : Nat → List Nat := fun d =>
      if d ∈ coveredCards then (s.coveredBy d).filter (fun c => c != clickedCard)
      else s.coveredBy d
    { s with
      history := { mtype := MoveType.tableau
                   playedCard := clickedCard
                   previousWaste := s.wasteCard
                   flippedCards := flippedCards
                   coveredCards := coveredCards } :: s.history
      tableau := s.tableau.filter (fun c => c != clickedCard)
      wasteCard := clickedCard
      coveredBy := newCoveredBy
      isFaceUp := fun d =>
        if d ∈ coveredCards ∧ newCoveredBy d = [] ∧ s.isFaceUp d = false then true
        else if d = clickedCard then true
        else s.isFaceUp d }

/-- `GameplayScene.drawStock` (lines 207‑231): no-op on an empty stock pile;
otherwise pops the top stock card, records a `'stock'` history entry and makes
the drawn card the new waste card (face up, via `updateWasteCard`). -/
def drawStock (s : GameState) : GameState :=
  match s.stockPile with
  | [] => s
  | drawnCard :: rest =>
    { s with
      stockPile := rest
      history := { mtype := MoveType.stock
                   playedCard := drawnCard
                   previousWaste := s.wasteCard
                   flippedCards := []
                   coveredCards := [] } :: s.history
      wasteCard := drawnCard
      isFaceUp := fun d => if d = drawnCard then true else s.isFaceUp d }

/-- `GameplayScene.undoMove` (lines 252‑316): no-op if the history is empty or
fewer than 50 coins remain; otherwise deducts 50 coins, pops the top record
and reverses it.  A `'stock'` record pushes the drawn card back on top of the
stock pile face down; a `'tableau'` record returns the played card to the
tableau, flips the recorded `flippedCards` back face down and re-adds the
played card to the `coveredBy` list of every card in `coveredCards` (once per
occurrence, matching the `forEach`/`push` loop).  The waste card reverts to
`previousWaste` in both cases. -/
def undoMove (s : GameState) : GameState :=
  match s.history with
  | [] => s
  | last :: rest =>
    if s.coins < 50 then s
    else
      match last.mtype with
      | MoveType.stock =>
        { s with
          coins := s.coins - 50
          history := rest
          wasteCard := last.previousWaste
          stockPile := last.playedCard :: s.stockPile
          isFaceUp := fun d => if d = last.playedCard then false else s.isFaceUp d }
      | MoveType.tableau =>
        { s with
          coins := s.coins - 50
          history := rest
          wasteCard := last.previousWaste
          tableau := s.tableau ++ [last.playedCard]
          isFaceUp := fun d => if d ∈ last.flippedCards then false else s.isFaceUp d
          coveredBy := fun d =>
            s.coveredBy d ++ List.replicate (last.coveredCards.count d) last.playedCard }

/-! ### Level data and board construction (entities/Levels.ts, buildBoard) -/

/-- A card entry of the level data format (`{suit, rank}`). -/
structure LevelCard where
  suit : String
  rank : Int
deriving DecidableEq, Repr

/-- A layout slot of the level data format; the visual `x`, `y`, `angle`
fields are omitted.  `covers` lists the indices of the layout cards this
slot's card sits on top of. -/
structure LevelSlot where
  suit : String
  rank : Int
  covers : List Nat
deriving DecidableEq, Repr

/-- The level data format `{id, wasteCard, stockPile, layout}`. -/
structure LevelData where
  id : String
  wasteCard : LevelCard
  stockPile : List LevelCard
  layout : List LevelSlot
deriving DecidableEq, Repr

/-- Card ids for a level: layout slot `i` gets id `i`, stock entry `j` gets id
`layout.length + j`, the initial waste card gets id
`layout.length + stockPile.length`. -/
def totalCards (L : LevelData) : Nat :=
  L.layout.length + L.stockPile.length + 1

/-- The `coveredBy` lists built by the second loop of
`GameplayScene.buildBoard` (lines 122‑132): for each slot `k` in layout order
and each entry `b` of `slot.covers`, card `b` (if in range, mirroring the
`if (bottomCard)` guard) gets `k` pushed onto its `coveredBy` list. -/
def initCoveredBy (L : LevelData) (i : Nat) : List Nat :=
  if i < L.layout.length then
    (List.range L.layout.length).flatMap
      (fun k => (((L.layout.getD k ⟨"", 0, []⟩).covers).filter (fun b => b == i)).map
        (fun _ => k))
  else []

/-- The rank of a card id in the initial board. -/
def initRank (L : LevelData) (d : Nat) : Int :=
  if d < L.layout.length then (L.layout.getD d ⟨"", 0, []⟩).rank
  else if d < L.layout.length + L.stockPile.length then
    (L.stockPile.getD (d - L.layout.length) ⟨"", 0⟩).rank
  else L.wasteCard.rank

/-- The board state after `buildBoard` and `setupVisualStockAndWaste`
(GameplayScene.ts lines 111‑156): the tableau holds one card per layout slot,
cards with an empty `coveredBy` list are face up (lines 134‑136); the stock
cards are created face down in level order (the last entry is the top of the
pile); the waste card is face up; the coin counter starts at 1250 (line 32). -/
def initState (L : LevelData) : GameState :=
  { tableau := List.range L.layout.length
    stockPile := (List.range' L.layout.length L.stockPile.length).reverse
    wasteCard := L.layout.length + L.stockPile.length
    coveredBy := initCoveredBy L
    isFaceUp := fun d =>
      if d < L.layout.length then (initCoveredBy L d).isEmpty
      else if d < L.layout.length + L.stockPile.length then false
      else if d = L.layout.length + L.stockPile.length then true
      else false
    history := []
    coins := 1250
    rank := initRank L }

/-- The states of a level reachable through the interactive operations.  The
`play` step carries the fact that the clicked card is a tableau card: the
`pointerdown` handler invoking `handleCardClick` is only installed on tableau
cards (`buildBoard`, line 117), and cards leaving the tableau have their
`eventMode` set to `"none"` (`updateWasteCard`), so only tableau cards can be
clicked. -/
inductive Reachable (L : LevelData) : GameState → Prop where
  | init : Reachable L (initState L)
  | play : ∀ {s : GameState} (c : Nat), c ∈ s.tableau → Reachable L s →
      Reachable L (handleCardClick s c)
  | draw : ∀ {s : GameState}, Reachable L s → Reachable L (drawStock s)
  | undo : ∀ {s : GameState}, Reachable L s → Reachable L (undoMove s)

/-! ### C4: the `canPlay` decision rule -/

/-- A two-card state used to evaluate the circular-adjacency examples:
card 0 is a King (rank 13), card 1 is an Ace (rank 1); both are uncovered and
face up. -/
def adjacencyState : GameState :=
  { tableau := [0, 1]
    stockPile := []
    wasteCard := 2
    coveredBy := fun _ => []
    isFaceUp := fun _ => true
    history := []
    coins := 1250
    rank := fun d => if d = 0 then 13 else 1 }

/-- C4: `canPlayOn` returns true iff the card's `coveredBy` list is empty, the
card is face up, and the absolute rank difference to the waste rank is exactly
1 or exactly 12; in particular it accepts the rank pairs (13,1) and (1,13)
and rejects (1,3). -/
theorem c4_canPlay_rule (s : GameState) (c : Nat) (wr : Int) :
    (canPlayOn s c wr = true ↔
      s.coveredBy c = [] ∧ s.isFaceUp c = true ∧
        ((s.rank c - wr).natAbs = 1 ∨ (s.rank c - wr).natAbs = 12)) ∧
    canPlayOn adjacencyState 0 1 = true ∧
    canPlayOn adjacencyState 1 13 = true ∧
    canPlayOn adjacencyState 1 3 = false := by
  refine ⟨?_, by decide, by decide, by decide⟩
  unfold canPlayOn
  constructor
  · intro h
    by_cases hcond : 0 < (s.coveredBy c).length || !(s.isFaceUp c)
    · simp [hcond] at h
    · rw [if_neg hcond] at h
      simp only [Bool.or_eq_true, decide_eq_true_eq, not_or, Nat.not_lt,
        Bool.not_eq_true', Bool.not_eq_false] at hcond
      rcases hcond with ⟨hlen, hfu⟩
      refine ⟨List.length_eq_zero.mp (Nat.le_zero.mp hlen), hfu, ?_⟩
      simpa using h
  · rintro ⟨hcb, hfu, hdiff⟩
    have hcond : ¬(0 < (s.coveredBy c).length || !(s.isFaceUp c)) = true := by
      simp [hcb, hfu]
    rw [if_neg hcond]
    simpa using hdiff

/-! ### Basic consequences of the definitions -/

/-- A successful `canPlayOn` implies the card is uncovered and face up. -/
lemma canPlayOn_uncovered_faceUp {s : GameState} {c : Nat} {wr : Int}
    (h : canPlayOn s c wr = true) : s.coveredBy c = [] ∧ s.isFaceUp c = true := by
  unfold canPlayOn at h
  by_cases hcond : 0 < (s.coveredBy c).length || !(s.isFaceUp c)
  · simp [hcond] at h
  · simp only [Bool.or_eq_true, decide_eq_true_eq, not_or, Nat.not_lt,
      Bool.not_eq_true', Bool.not_eq_false] at hcond
    exact ⟨List.length_eq_zero.mp (Nat.le_zero.mp hcond.1), hcond.2⟩

/-- Unfolding of a successful tableau play. -/
lemma handleCardClick_play {s : GameState} {c : Nat}
    (h : canPlayOn s c (s.rank s.wasteCard) = true) :
    handleCardClick s c =
      (let coveredCards := s.tableau.filter (fun x => decide (c ∈ s.coveredBy x))
       let flippedCards := coveredCards.filter
         (fun x => decide ((s.coveredBy x).length = 1 ∧ s.isFaceUp x = false))
       let newCoveredBy : Nat → List Nat := fun d =>
         if d ∈ coveredCards then (s.coveredBy d).filter (fun x => x != c)
         else s.coveredBy d
       { s with
         history := { mtype := MoveType.tableau
                      playedCard := c
                      previousWaste := s.wasteCard
                      flippedCards := flippedCards
                      coveredCards := coveredCards } :: s.history
         tableau := s.tableau.filter (fun x => x != c)
         wasteCard := c
         coveredBy := newCoveredBy
         isFaceUp := fun d =>
           if d ∈ coveredCards ∧ newCoveredBy d = [] ∧ s.isFaceUp d = false then true
           else if d = c then true
           else s.isFaceUp d }) := by
  unfold handleCardClick
  rw [h]
  rfl

/-- An unsuccessful click is a no-op. -/
lemma handleCardClick_reject {s : GameState} {c : Nat}
    (h : canPlayOn s c (s.rank s.wasteCard) = false) :
    handleCardClick s c = s := by
  unfold handleCardClick
  rw [h]
  rfl

/-- Unfolding of a stock draw from a non-empty pile. -/
lemma drawStock_cons {s : GameState} {t : Nat} {rest : List Nat}
    (h : s.stockPile = t :: rest) :
    drawStock s =
      { s with
        stockPile := rest
        history := { mtype := MoveType.stock
                     playedCard := t
                     previousWaste := s.wasteCard
                     flippedCards := []
                     coveredCards := [] } :: s.history
        wasteCard := t
        isFaceUp := fun d => if d = t then true else s.isFaceUp d } := by
  unfold drawStock
  rw [h]

/-- Unfolding of a paid undo of a tableau record. -/
lemma undoMove_tableau {s : GameState} {r : MoveRecord} {rest : List MoveRecord}
    (hh : s.history = r :: rest) (hc : ¬ s.coins < 50) (ht : r.mtype = MoveType.tableau) :
    undoMove s =
      { s with
        coins := s.coins - 50
        history := rest
        wasteCard := r.previousWaste
        tableau := s.tableau ++ [r.playedCard]
        isFaceUp := fun d => if d ∈ r.flippedCards then false else s.isFaceUp d
        coveredBy := fun d =>
          s.coveredBy d ++ List.replicate (r.coveredCards.count d) r.playedCard } := by
  unfold undoMove
  rw [hh]
  dsimp only
  rw [if_neg hc, ht]

/-- Unfolding of a paid undo of a stock record. -/
lemma undoMove_stock {s : GameState} {r : MoveRecord} {rest : List MoveRecord}
    (hh : s.history = r :: rest) (hc : ¬ s.coins < 50) (ht : r.mtype = MoveType.stock) :
    undoMove s =
      { s with
        coins := s.coins - 50
        history := rest
        wasteCard := r.previousWaste
        stockPile := r.playedCard :: s.stockPile
        isFaceUp := fun d => if d = r.playedCard then false else s.isFaceUp d } := by
  unfold undoMove
  rw [hh]
  dsimp only
  rw [if_neg hc, ht]

/-! ### C7: undo refusal is an atomic no-op -/

/-- C7: `undoMove` with an empty history, or with fewer than 50 coins, returns
the state completely unchanged — no board field changes, no history record is
consumed, no coins are deducted.  The refusal is the non-exceptional identity
result of the (total) function, mirroring the early `return` statements. -/
theorem c7_undo_refusal (s : GameState) (h : s.history = [] ∨ s.coins < 50) :
    undoMove s = s := by
  rcases h with h | h
  · unfold undoMove
    rw [h]
  · unfold undoMove
    cases hh : s.history with
    | nil => rfl
    | cons r rest =>
      dsimp only
      rw [if_pos h]

/-- A state with a non-empty history but an empty purse, witnessing the
insufficient-currency refusal. -/
def brokeState : GameState :=
  { tableau := [0]
    stockPile := []
    wasteCard := 1
    coveredBy := fun _ => []
    isFaceUp := fun _ => true
    history := [{ mtype := MoveType.stock, playedCard := 2, previousWaste := 3,
                  flippedCards := [], coveredCards := [] }]
    coins := 20
    rank := fun _ => 1 }

/-- Witness for C7 at a concrete state with history and 20 coins. -/
theorem c7_undo_refusal_witness :
    (brokeState.history = [] ∨ brokeState.coins < 50) ∧ undoMove brokeState = brokeState :=
  ⟨Or.inr (by decide), c7_undo_refusal brokeState (Or.inr (by decide))⟩

/-! ### C5: uncover postcondition of a successful play -/

/-- C5: after a successful `handleCardClick(card)`, every card that was
covered by the played card has the played card removed from its `coveredBy`
list; every such card whose list became empty is face up, and every such card
whose list is still non-empty and that was face down stays face down. -/
theorem c5_play_uncover (s : GameState) (c : Nat)
    (hplay : canPlayOn s c (s.rank s.wasteCard) = true) :
    ∀ d ∈ s.tableau.filter (fun x => decide (c ∈ s.coveredBy x)),
      c ∉ (handleCardClick s c).coveredBy d ∧
      ((handleCardClick s c).coveredBy d = [] → (handleCardClick s c).isFaceUp d = true) ∧
      ((handleCardClick s c).coveredBy d ≠ [] → s.isFaceUp d = false →
        (handleCardClick s c).isFaceUp d = false) := by
  intro d hd
  obtain ⟨hcbc, hfuc⟩ := canPlayOn_uncovered_faceUp hplay
  rw [handleCardClick_play hplay]
  dsimp only
  have hdc : d ≠ c := by
    rintro rfl
    have := (List.mem_filter.mp hd).2
    rw [hcbc] at this
    simp at this
  refine ⟨?_, ?_, ?_⟩
  · rw [if_pos hd]
    intro hmem
    have := (List.mem_filter.mp hmem).2
    simp at this
  · rw [if_pos hd]
    intro hempty
    by_cases hfu : s.isFaceUp d = false
    · rw [if_pos ⟨hd, hempty, hfu⟩]
    · rw [Bool.not_eq_false] at hfu
      have hcond : ¬(d ∈ s.tableau.filter (fun x => decide (c ∈ s.coveredBy x)) ∧
          (s.coveredBy d).filter (fun x => x != c) = [] ∧
          s.isFaceUp d = false) := by
        rintro ⟨-, -, h2⟩
        rw [hfu] at h2
        cases h2
      rw [if_neg hcond, if_neg hdc]
      exact hfu
  · rw [if_pos hd]
    intro hne hfu
    have hcond : ¬(d ∈ s.tableau.filter (fun x => decide (c ∈ s.coveredBy x)) ∧
        (s.coveredBy d).filter (fun x => x != c) = [] ∧
        s.isFaceUp d = false) := by
      rintro ⟨-, h2, -⟩
      exact hne h2
    rw [if_neg hcond, if_neg hdc]
    exact hfu

/-- A four-card state for the uncover witness: tableau cards 0 and 1, card 1
covered by card 0 and face down, stock card 2, waste card 3 of adjacent
rank. -/
def uncoverState : GameState :=
  { tableau := [0, 1]
    stockPile := [2]
    wasteCard := 3
    coveredBy := fun d => if d = 1 then [0] else []
    isFaceUp := fun d => if d = 1 then false else if d = 2 then false else true
    history := []
    coins := 1250
    rank := fun d => if d = 0 then 3 else if d = 1 then 5 else if d = 2 then 7 else 2 }

/-- Witness for C5: playing card 0 of `uncoverState` satisfies the
precondition, and the postcondition holds there. -/
theorem c5_play_uncover_witness :
    canPlayOn uncoverState 0 (uncoverState.rank uncoverState.wasteCard) = true ∧
    (∀ d ∈ uncoverState.tableau.filter (fun x => decide (0 ∈ uncoverState.coveredBy x)),
      0 ∉ (handleCardClick uncoverState 0).coveredBy d ∧
      ((handleCardClick uncoverState 0).coveredBy d = [] →
        (handleCardClick uncoverState 0).isFaceUp d = true) ∧
      ((handleCardClick uncoverState 0).coveredBy d ≠ [] → uncoverState.isFaceUp d = false →
        (handleCardClick uncoverState 0).isFaceUp d = false)) :=
  ⟨by decide, c5_play_uncover uncoverState 0 (by decide)⟩

/-! ### C1: undo is an exact inverse of a legal move -/

/-- Removing the unique occurrence of `a` and appending it back is a
permutation of the original list. -/
lemma filter_bne_append_perm {l : List Nat} {a : Nat} (hn : l.Nodup) (ha : a ∈ l) :
    ((l.filter (fun x => x != a)) ++ [a]).Perm l := by
  rw [← hn.erase_eq_filter a]
  exact (List.perm_append_singleton a _).trans (List.perm_cons_erase ha).symm

/-- If filtering away `a` from a duplicate-free list containing `a` leaves
nothing, the list was exactly `[a]`. -/
lemma eq_singleton_of_filter_bne_nil {l : List Nat} {a : Nat} (hn : l.Nodup) (ha : a ∈ l)
    (h : l.filter (fun x => x != a) = []) : l = [a] := by
  have hall : ∀ x ∈ l, x = a := by
    intro x hx
    have := List.filter_eq_nil_iff.mp h x hx
    simpa using this
  cases l with
  | nil => cases ha
  | cons y t =>
    have hy : y = a := hall y (List.mem_cons_self y t)
    cases t with
    | nil => rw [hy]
    | cons z t2 =>
      have hz : z = a := hall z (List.mem_cons_of_mem y (List.mem_cons_self z t2))
      rw [List.nodup_cons] at hn
      exact absurd (by rw [hy, ← hz]; exact List.mem_cons_self z t2) hn.1

/-- The legal moves of the claim: a tableau play satisfying `canPlayOn`
(on a card in the tableau) or a stock draw from a non-empty stock. -/
inductive Move where
  | playTableau : Nat → Move
  | drawFromStock : Move
deriving DecidableEq, Repr

/-- Applying a move to the board state. -/
def applyMove : Move → GameState → GameState
  | Move.playTableau c, s => handleCardClick s c
  | Move.drawFromStock, s => drawStock s

/-- Legality of a move in a state. -/
def legalMove : Move → GameState → Prop
  | Move.playTableau c, s => c ∈ s.tableau ∧ canPlayOn s c (s.rank s.wasteCard) = true
  | Move.drawFromStock, s => s.stockPile ≠ []

instance (m : Move) (s : GameState) : Decidable (legalMove m s) := by
  cases m <;> · unfold legalMove; infer_instance

/-- C1: for every board state whose tableau and `coveredBy` lists are
duplicate-free, whose stock cards are face down and whose purse can pay the
undo fee, performing a legal move (tableau play or stock draw) and then
`undoMove` restores every board-state field: the tableau as a set (the played
card is re-appended, so only its position in the array may change), the stock
order exactly, the `coveredBy` graph of every card (as a set of edges), every
face-up flag, and the waste card; the history is also restored, and only the
coin counter differs. -/
theorem c1_undo_move_inverse (s : GameState) (m : Move)
    (hl : legalMove m s)
    (hnt : s.tableau.Nodup)
    (hcb : ∀ d ∈ s.tableau, (s.coveredBy d).Nodup)
    (hstk : ∀ d ∈ s.stockPile, s.isFaceUp d = false)
    (hcoins : 50 ≤ s.coins) :
    (undoMove (applyMove m s)).tableau.Perm s.tableau ∧
    (undoMove (applyMove m s)).stockPile = s.stockPile ∧
    (undoMove (applyMove m s)).wasteCard = s.wasteCard ∧
    (∀ d, ((undoMove (applyMove m s)).coveredBy d).Perm (s.coveredBy d)) ∧
    (∀ d, (undoMove (applyMove m s)).isFaceUp d = s.isFaceUp d) ∧
    (undoMove (applyMove m s)).history = s.history := by
  have hnotlt : ¬ (s.coins : Int) < 50 := by omega
  cases m with
  | drawFromStock =>
    obtain ⟨t, rest, hstock⟩ : ∃ t rest, s.stockPile = t :: rest := by
      cases hsp : s.stockPile with
      | nil => exact absurd hsp hl
      | cons t rest => exact ⟨t, rest, rfl⟩
    simp only [applyMove]
    rw [drawStock_cons hstock]
    unfold undoMove
    dsimp only
    rw [if_neg hnotlt]
    refine ⟨List.Perm.refl _, ?_, rfl, fun d => List.Perm.refl _, ?_, rfl⟩
    · exact hstock.symm
    · intro d
      dsimp only
      by_cases hdt : d = t
      · rw [if_pos hdt, hdt]
        exact (hstk t (by rw [hstock]; exact List.mem_cons_self t rest)).symm
      · rw [if_neg hdt, if_neg hdt]
  | playTableau c =>
    obtain ⟨hmem, hplay⟩ := hl
    obtain ⟨hcbc, hfuc⟩ := canPlayOn_uncovered_faceUp hplay
    simp only [applyMove]
    rw [handleCardClick_play hplay]
    dsimp only
    unfold undoMove
    dsimp only
    rw [if_neg hnotlt]
    dsimp only
    have hcovnd : (s.tableau.filter (fun x => decide (c ∈ s.coveredBy x))).Nodup :=
      hnt.filter _
    have hcnotcov : c ∉ s.tableau.filter (fun x => decide (c ∈ s.coveredBy x)) := by
      intro hcmem
      have := (List.mem_filter.mp hcmem).2
      rw [hcbc] at this
      simp at this
    refine ⟨?_, rfl, rfl, ?_, ?_, rfl⟩
    · exact filter_bne_append_perm hnt hmem
    · intro d
      by_cases hd : d ∈ s.tableau.filter (fun x => decide (c ∈ s.coveredBy x))
      · have hdt : d ∈ s.tableau := (List.mem_filter.mp hd).1
        have hdc : c ∈ s.coveredBy d := by
          have := (List.mem_filter.mp hd).2
          exact of_decide_eq_true this
        have hcount : (s.tableau.filter (fun x => decide (c ∈ s.coveredBy x))).count d = 1 :=
          List.nodup_iff_count_eq_one.mp hcovnd d hd
        rw [if_pos hd, hcount]
        simpa using filter_bne_append_perm (hcb d hdt) hdc
      · have hcount : (s.tableau.filter (fun x => decide (c ∈ s.coveredBy x))).count d = 0 :=
          List.count_eq_zero.mpr hd
        rw [if_neg hd, hcount]
        simp
    · intro d
      by_cases hflip : d ∈ (s.tableau.filter (fun x => decide (c ∈ s.coveredBy x))).filter
          (fun x => decide ((s.coveredBy x).length = 1 ∧ s.isFaceUp x = false))
      · rw [if_pos hflip]
        have := (List.mem_filter.mp hflip).2
        exact (of_decide_eq_true this).2.symm
      · rw [if_neg hflip]
        by_cases hcond : d ∈ s.tableau.filter (fun x => decide (c ∈ s.coveredBy x)) ∧
            (if d ∈ s.tableau.filter (fun x => decide (c ∈ s.coveredBy x)) then
              (s.coveredBy d).filter (fun x => x != c)
            else s.coveredBy d) = [] ∧ s.isFaceUp d = false
        · exfalso
          obtain ⟨hd, hempty, hfu⟩ := hcond
          rw [if_pos hd] at hempty
          have hdt : d ∈ s.tableau := (List.mem_filter.mp hd).1
          have hdc : c ∈ s.coveredBy d := of_decide_eq_true (List.mem_filter.mp hd).2
          have hsing : s.coveredBy d = [c] :=
            eq_singleton_of_filter_bne_nil (hcb d hdt) hdc hempty
          exact hflip (List.mem_filter.mpr ⟨hd, by rw [hsing]; simp [hfu]⟩)
        · rw [if_neg hcond]
          by_cases hdceq : d = c
          · rw [if_pos hdceq, hdceq, hfuc]
          · rw [if_neg hdceq]

/-- A state used as the C1 witness: tableau cards 0 and 1 (card 1 covered by
card 0 and face down), one stock card, waste card 3 adjacent to card 0. -/
def c1State : GameState :=
  { tableau := [0, 1]
    stockPile := [2]
    wasteCard := 3
    coveredBy := fun d => if d = 1 then [0] else []
    isFaceUp := fun d => if d = 1 then false else if d = 2 then false else true
    history := []
    coins := 1250
    rank := fun d => if d = 0 then 3 else if d = 1 then 5 else if d = 2 then 7 else 2 }

/-- Witness for C1: the legality and well-formedness hypotheses hold at
`c1State` for the tableau play of card 0, and the restoration holds there. -/
theorem c1_undo_move_inverse_witness :
    legalMove (Move.playTableau 0) c1State ∧
    c1State.tableau.Nodup ∧
    (∀ d ∈ c1State.tableau, (c1State.coveredBy d).Nodup) ∧
    (∀ d ∈ c1State.stockPile, c1State.isFaceUp d = false) ∧
    50 ≤ c1State.coins ∧
    ((undoMove (applyMove (Move.playTableau 0) c1State)).tableau.Perm c1State.tableau ∧
     (undoMove (applyMove (Move.playTableau 0) c1State)).stockPile = c1State.stockPile ∧
     (undoMove (applyMove (Move.playTableau 0) c1State)).wasteCard = c1State.wasteCard ∧
     (∀ d, ((undoMove (applyMove (Move.playTableau 0) c1State)).coveredBy d).Perm
        (c1State.coveredBy d)) ∧
     (∀ d, (undoMove (applyMove (Move.playTableau 0) c1State)).isFaceUp d =
        c1State.isFaceUp d) ∧
     (undoMove (applyMove (Move.playTableau 0) c1State)).history = c1State.history) :=
  ⟨by decide, by decide, by decide, by decide, by decide,
   c1_undo_move_inverse c1State (Move.playTableau 0) (by decide) (by decide) (by decide)
     (by decide) (by decide)⟩

/-! ### A concrete demo level -/

/-- A small concrete level: two layout cards (card 0 covered by card 1), one
stock card, waste card of rank 1.  Card ids: layout 0 and 1, stock 2,
waste 3. -/
def demoLevel : LevelData :=
  { id := "demo"
    wasteCard := { suit := "hearts", rank := 1 }
    stockPile := [{ suit := "spades", rank := 9 }]
    layout := [{ suit := "clubs", rank := 2, covers := [] },
               { suit := "diamonds", rank := 13, covers := [0] }] }

/-! ### C10: undo costs exactly 50 coins and the purse never goes negative -/

/-- `handleCardClick` never changes the coin counter. -/
lemma coins_handleCardClick (s : GameState) (c : Nat) :
    (handleCardClick s c).coins = s.coins := by
  unfold handleCardClick
  split <;> rfl

/-- `drawStock` never changes the coin counter. -/
lemma coins_drawStock (s : GameState) : (drawStock s).coins = s.coins := by
  unfold drawStock
  split <;> rfl

/-- `undoMove` keeps the coin counter non-negative. -/
lemma coins_undoMove_nonneg {s : GameState} (h : 0 ≤ s.coins) : 0 ≤ (undoMove s).coins := by
  unfold undoMove
  split
  · exact h
  · split
    · exact h
    · split <;> dsimp only <;> omega

/-- C10: every undo that consumes a record deducts exactly 50 coins (and pops
exactly that record); undo is refused outright whenever fewer than 50 coins
remain; consequently, along every reachable state of a level the coin counter
(initially 1250) stays non-negative. -/
theorem c10_undo_cost (L : LevelData) (s : GameState) (h : Reachable L s) :
    0 ≤ s.coins ∧
    (∀ t : GameState, ∀ r : MoveRecord, ∀ rest : List MoveRecord,
      t.history = r :: rest → ¬ t.coins < 50 →
      (undoMove t).coins = t.coins - 50 ∧ (undoMove t).history = rest) ∧
    (∀ t : GameState, t.coins < 50 → undoMove t = t) := by
  refine ⟨?_, ?_, ?_⟩
  · induction h with
    | init =>
      show (0 : Int) ≤ 1250
      omega
    | play c hmem hprev ih => rw [coins_handleCardClick]; exact ih
    | draw hprev ih => rw [coins_drawStock]; exact ih
    | undo hprev ih => exact coins_undoMove_nonneg ih
  · intro t r rest hh hc
    unfold undoMove
    rw [hh]
    dsimp only
    rw [if_neg hc]
    cases hmt : r.mtype <;> exact ⟨rfl, rfl⟩
  · intro t ht
    unfold undoMove
    cases hh : t.history with
    | nil => rfl
    | cons r rest =>
      dsimp only
      rw [if_pos ht]

/-- Witness for C10 at the initial state of the demo level. -/
theorem c10_undo_cost_witness :
    Reachable demoLevel (initState demoLevel) ∧
    (0 ≤ (initState demoLevel).coins ∧
     (∀ t : GameState, ∀ r : MoveRecord, ∀ rest : List MoveRecord,
       t.history = r :: rest → ¬ t.coins < 50 →
       (undoMove t).coins = t.coins - 50 ∧ (undoMove t).history = rest) ∧
     (∀ t : GameState, t.coins < 50 → undoMove t = t)) :=
  ⟨Reachable.init, c10_undo_cost demoLevel (initState demoLevel) Reachable.init⟩

/-! ### Reachable-state invariants for C2 and C9 -/

/-- The previous waste cards held inside the history records: cards displaced
from the waste position, which live in no board collection. -/
def discarded (h : List MoveRecord) : List Nat := h.map (fun r => r.previousWaste)

/-- All card ids a state accounts for: the tableau, the stock pile, the waste
card and the discarded previous-waste cards of the history. -/
def liveList (s : GameState) : List Nat :=
  s.tableau ++ (s.stockPile ++ (s.wasteCard :: discarded s.history))

/-- The history chain property: the top record's `playedCard` is the current
waste card, and each record's `previousWaste` is the `playedCard` of the next
deeper record. -/
def chainOK : Nat → List MoveRecord → Prop
  | _, [] => True
  | w, r :: t => r.playedCard = w ∧ chainOK r.previousWaste t

/-- Every record's `coveredCards` are in the tableau as it will be when that
record reaches the top of the history (records above it having been undone,
each tableau-type undo returning its played card to the tableau). -/
def covOK : List Nat → List MoveRecord → Prop
  | _, [] => True
  | tab, r :: t =>
    (∀ x ∈ r.coveredCards, x ∈ tab) ∧
    covOK (match r.mtype with
           | MoveType.tableau => r.playedCard :: tab
           | MoveType.stock => tab) t

/-- The ids of the cards created for the tableau. -/
def tabOrig (L : LevelData) : List Nat := List.range L.layout.length

/-- The ids of the cards created for the stock pile. -/
def stockOrig (L : LevelData) : List Nat :=
  List.range' L.layout.length L.stockPile.length

/-- The inductive invariant of reachable states. -/
structure GameInv (L : LevelData) (s : GameState) : Prop where
  perm : (liveList s).Perm (List.range (totalCards L))
  chain : chainOK s.wasteCard s.history
  face : ∀ c ∈ s.tableau, s.coveredBy c = [] → s.isFaceUp c = true
  recTab : ∀ r ∈ s.history, r.mtype = MoveType.tableau →
    s.coveredBy r.playedCard = [] ∧ s.isFaceUp r.playedCard = true ∧
    (∀ x ∈ r.flippedCards, x ∈ r.coveredCards) ∧ r.playedCard ∈ tabOrig L
  recStock : ∀ r ∈ s.history, r.mtype = MoveType.stock →
    r.coveredCards = [] ∧ r.flippedCards = [] ∧ r.playedCard ∈ stockOrig L
  origTab : ∀ c ∈ s.tableau, c ∈ tabOrig L
  origStock : ∀ c ∈ s.stockPile, c ∈ stockOrig L
  cov : covOK s.tableau s.history

/-- Distinctness facts packed out of a duplicate-free live list. -/
lemma live_facts {s : GameState} (hnd : (liveList s).Nodup) :
    s.tableau.Nodup ∧ s.stockPile.Nodup ∧ (discarded s.history).Nodup ∧
    (∀ x ∈ s.tableau, x ∉ s.stockPile ∧ x ≠ s.wasteCard ∧ x ∉ discarded s.history) ∧
    (∀ x ∈ s.stockPile, x ≠ s.wasteCard ∧ x ∉ discarded s.history) ∧
    s.wasteCard ∉ discarded s.history := by
  unfold liveList at hnd
  simp only [List.nodup_append, List.nodup_cons, List.disjoint_left, List.mem_append,
    List.mem_cons, not_or] at hnd
  obtain ⟨h1, ⟨h2, ⟨h3, h4⟩, h5⟩, h6⟩ := hnd
  exact ⟨h1, h2, h4, fun x hx => h6 hx, fun x hx => h5 hx, h3⟩

/-- The live list is duplicate free in an invariant state. -/
lemma GameInv.nodupLive {L : LevelData} {s : GameState} (h : GameInv L s) : (liveList s).Nodup :=
  (h.perm.nodup_iff).mpr (List.nodup_range _)

/-- Each record's played card is the waste card or a discarded card. -/
lemma chainOK_played_mem {w : Nat} {h : List MoveRecord} (hc : chainOK w h) :
    ∀ r ∈ h, r.playedCard ∈ w :: discarded h := by
  induction h generalizing w with
  | nil => intro r hr; cases hr
  | cons r0 t ih =>
    intro r hr
    obtain ⟨h0, ht⟩ := hc
    rcases List.mem_cons.mp hr with rfl | hrt
    · rw [h0]; exact List.mem_cons_self _ _
    · have hmem := ih ht r hrt
      rcases List.mem_cons.mp hmem with h1 | h1
      · exact List.mem_cons_of_mem _ (by rw [h1]; exact List.mem_cons_self _ _)
      · exact List.mem_cons_of_mem _ (List.mem_cons_of_mem _ h1)

/-- `covOK` is monotone in the tableau (membership-wise). -/
lemma covOK_mono {t1 t2 : List Nat} {h : List MoveRecord} (hsub : ∀ x ∈ t1, x ∈ t2)
    (hc : covOK t1 h) : covOK t2 h := by
  induction h generalizing t1 t2 with
  | nil => trivial
  | cons r t ih =>
    obtain ⟨h1, h2⟩ := hc
    refine ⟨fun x hx => hsub x (h1 x hx), ?_⟩
    cases hmt : r.mtype
    · rw [hmt] at h2
      exact ih (fun x hx => by
        rcases List.mem_cons.mp hx with rfl | hx
        · exact List.mem_cons_self _ _
        · exact List.mem_cons_of_mem _ (hsub x hx)) h2
    · rw [hmt] at h2
      exact ih hsub h2

/-- The initial board state satisfies the invariant. -/
lemma inv_init (L : LevelData) : GameInv L (initState L) := by
  constructor
  · show (List.range L.layout.length ++
      ((List.range' L.layout.length L.stockPile.length).reverse ++
        ((L.layout.length + L.stockPile.length) :: discarded []))).Perm
      (List.range (totalCards L))
    have hr : List.range (totalCards L) =
        (List.range L.layout.length ++ List.range' L.layout.length L.stockPile.length) ++
          [L.layout.length + L.stockPile.length] := by
      unfold totalCards
      rw [List.range_succ]
      congr 1
      rw [List.range_eq_range', List.range_eq_range', Nat.add_comm L.layout.length]
      have := (List.range'_append 0 L.layout.length L.stockPile.length 1).symm
      simpa using this
    rw [hr, ← Multiset.coe_eq_coe]
    show _ = _
    simp only [discarded, List.map_nil, ← Multiset.cons_coe, ← Multiset.coe_add,
      Multiset.coe_reverse, Multiset.coe_nil, ← Multiset.singleton_add]
    abel
  · trivial
  · intro c hc hcb
    have hcb' : initCoveredBy L c = [] := hcb
    show (if c < L.layout.length then (initCoveredBy L c).isEmpty else _) = true
    rw [if_pos (List.mem_range.mp hc), hcb']
    rfl
  · intro r hr
    cases hr
  · intro r hr
    cases hr
  · intro c hc
    exact hc
  · intro c hc
    exact List.mem_reverse.mp hc
  · trivial

/-- Permutation step for a tableau play: the played card moves from the
tableau to the waste slot, the old waste card joins the discarded cards. -/
lemma perm_live_play {tab S D : List Nat} {w c : Nat} (hn : tab.Nodup) (hc : c ∈ tab) :
    (tab.filter (fun x => x != c) ++ (S ++ (c :: (w :: D)))).Perm
      (tab ++ (S ++ (w :: D))) := by
  rw [← hn.erase_eq_filter, ← Multiset.coe_eq_coe]
  have key : (c ::ₘ (tab.erase c : Multiset Nat)) = (tab : Multiset Nat) := by
    rw [← Multiset.coe_erase]
    exact_mod_cast Multiset.cons_erase (show c ∈ (tab : Multiset Nat) by exact_mod_cast hc)
  simp only [← Multiset.cons_coe, ← Multiset.coe_add]
  rw [← key]
  simp only [← Multiset.singleton_add]
  abel

/-- Permutation step for a stock draw. -/
lemma perm_live_draw {tab rest D : List Nat} {w t : Nat} :
    (tab ++ (rest ++ (t :: (w :: D)))).Perm (tab ++ ((t :: rest) ++ (w :: D))) := by
  rw [← Multiset.coe_eq_coe]
  simp only [← Multiset.cons_coe, ← Multiset.coe_add, ← Multiset.singleton_add]
  abel

/-- Permutation step for undoing a tableau record. -/
lemma perm_live_undo_tab {tab S D : List Nat} {pw c : Nat} :
    ((tab ++ [c]) ++ (S ++ (pw :: D))).Perm (tab ++ (S ++ (c :: (pw :: D)))) := by
  rw [← Multiset.coe_eq_coe]
  simp only [← Multiset.cons_coe, ← Multiset.coe_add, ← Multiset.singleton_add]
  abel

/-- Permutation step for undoing a stock record. -/
lemma perm_live_undo_stock {tab S D : List Nat} {pw c : Nat} :
    (tab ++ ((c :: S) ++ (pw :: D))).Perm (tab ++ (S ++ (c :: (pw :: D)))) := by
  rw [← Multiset.coe_eq_coe]
  simp only [← Multiset.cons_coe, ← Multiset.coe_add, ← Multiset.singleton_add]
  abel

/-- Drawing from the stock preserves the invariant. -/
lemma inv_draw {L : LevelData} {s : GameState} (h : GameInv L s) : GameInv L (drawStock s) := by
  cases hsp : s.stockPile with
  | nil =>
    have hnoop : drawStock s = s := by
      unfold drawStock
      rw [hsp]
    rw [hnoop]
    exact h
  | cons t rest =>
    obtain ⟨hnt, hns, hnD, htf, hsf, hwD⟩ := live_facts h.nodupLive
    have htmem : t ∈ s.stockPile := by rw [hsp]; exact List.mem_cons_self t rest
    have htw : t ≠ s.wasteCard := (hsf t htmem).1
    have htD : t ∉ discarded s.history := (hsf t htmem).2
    rw [drawStock_cons hsp]
    constructor
    · show (s.tableau ++ (rest ++ (t :: (s.wasteCard :: discarded s.history)))).Perm _
      refine List.Perm.trans perm_live_draw ?_
      have : liveList s = s.tableau ++ ((t :: rest) ++ (s.wasteCard :: discarded s.history)) := by
        unfold liveList
        rw [hsp]
      rw [← this]
      exact h.perm
    · exact ⟨rfl, h.chain⟩
    · intro c hcmem hcb
      dsimp only
      by_cases hct : c = t
      · rw [if_pos hct]
      · rw [if_neg hct]
        exact h.face c hcmem hcb
    · intro r hr hmt
      rcases List.mem_cons.mp hr with rfl | hr
      · cases hmt
      · obtain ⟨h1, h2, h3, h4⟩ := h.recTab r hr hmt
        have hrp : r.playedCard ∈ s.wasteCard :: discarded s.history :=
          chainOK_played_mem h.chain r hr
        have hrt : r.playedCard ≠ t := by
          rintro rfl
          rcases List.mem_cons.mp hrp with h5 | h5
          · exact htw h5
          · exact htD h5
        refine ⟨h1, ?_, h3, h4⟩
        dsimp only
        rw [if_neg hrt]
        exact h2
    · intro r hr hmt
      rcases List.mem_cons.mp hr with rfl | hr
      · exact ⟨rfl, rfl, h.origStock t htmem⟩
      · exact h.recStock r hr hmt
    · exact h.origTab
    · intro c hcmem
      exact h.origStock c (by rw [hsp]; exact List.mem_cons_of_mem t hcmem)
    · refine ⟨fun x hx => ?_, h.cov⟩
      cases hx

/-- Clicking a tableau card preserves the invariant. -/
lemma inv_play {L : LevelData} {s : GameState} {c : Nat} (hc : c ∈ s.tableau)
    (h : GameInv L s) : GameInv L (handleCardClick s c) := by
  by_cases hplay : canPlayOn s c (s.rank s.wasteCard) = true
  case neg =>
    rw [handleCardClick_reject (by simpa using hplay)]
    exact h
  case pos =>
    obtain ⟨hcbc, hfuc⟩ := canPlayOn_uncovered_faceUp hplay
    obtain ⟨hnt, hns, hnD, htf, hsf, hwD⟩ := live_facts h.nodupLive
    have hcnotcov : c ∉ s.tableau.filter (fun x => decide (c ∈ s.coveredBy x)) := by
      intro hcmem
      have := (List.mem_filter.mp hcmem).2
      rw [hcbc] at this
      simp at this
    have hcovsub : ∀ x ∈ s.tableau.filter (fun x => decide (c ∈ s.coveredBy x)),
        x ∈ s.tableau := fun x hx => (List.mem_filter.mp hx).1
    rw [handleCardClick_play hplay]
    dsimp only
    constructor
    · show ((s.tableau.filter (fun x => x != c)) ++
        (s.stockPile ++ (c :: (s.wasteCard :: discarded s.history)))).Perm _
      exact (perm_live_play hnt hc).trans h.perm
    · exact ⟨rfl, h.chain⟩
    · intro d hd hcb
      dsimp only at hd hcb ⊢
      have hdt : d ∈ s.tableau := (List.mem_filter.mp hd).1
      have hdc : d ≠ c := by
        have := (List.mem_filter.mp hd).2
        simpa [bne_iff_ne] using this
      by_cases hdcov : d ∈ s.tableau.filter (fun x => decide (c ∈ s.coveredBy x))
      · by_cases hfu : s.isFaceUp d = false
        · rw [if_pos ⟨hdcov, hcb, hfu⟩]
        · rw [Bool.not_eq_false] at hfu
          rw [if_neg, if_neg hdc]
          · exact hfu
          · rintro ⟨-, -, h2⟩
            rw [hfu] at h2
            cases h2
      · rw [if_neg hdcov] at hcb
        rw [if_neg (fun hh => hdcov hh.1), if_neg hdc]
        exact h.face d hdt hcb
    · intro r hr hmt
      rcases List.mem_cons.mp hr with rfl | hr
      · refine ⟨?_, ?_, ?_, h.origTab c hc⟩
        · show (if c ∈ s.tableau.filter (fun x => decide (c ∈ s.coveredBy x)) then _
            else s.coveredBy c) = []
          rw [if_neg hcnotcov]
          exact hcbc
        · show (if _ ∧ _ ∧ _ then true else if c = c then true else _) = true
          rw [if_neg (fun hh => hcnotcov hh.1), if_pos rfl]
        · intro x hx
          exact (List.mem_filter.mp hx).1
      · obtain ⟨h1, h2, h3, h4⟩ := h.recTab r hr hmt
        have hrpnt : r.playedCard ∉ s.tableau := by
          intro hmem
          have h5 := htf r.playedCard hmem
          have h6 := chainOK_played_mem h.chain r hr
          rcases List.mem_cons.mp h6 with h7 | h7
          · exact h5.2.1 h7
          · exact h5.2.2 h7
        have hrpncov : r.playedCard ∉ s.tableau.filter
            (fun x => decide (c ∈ s.coveredBy x)) := fun hm => hrpnt (hcovsub _ hm)
        have hrpnc : r.playedCard ≠ c := fun he => hrpnt (he ▸ hc)
        refine ⟨?_, ?_, h3, h4⟩
        · show (if r.playedCard ∈ _ then _ else s.coveredBy r.playedCard) = []
          rw [if_neg hrpncov]
          exact h1
        · show (if _ ∧ _ ∧ _ then true else if r.playedCard = c then true else _) = true
          rw [if_neg (fun hh => hrpncov hh.1), if_neg hrpnc]
          exact h2
    · intro r hr hmt
      rcases List.mem_cons.mp hr with rfl | hr
      · cases hmt
      · exact h.recStock r hr hmt
    · intro d hd
      exact h.origTab d (List.mem_of_mem_filter hd)
    · exact h.origStock
    · refine ⟨?_, ?_⟩
      · intro x hx
        refine List.mem_filter.mpr ⟨hcovsub x hx, ?_⟩
        have hxc : x ≠ c := fun he => hcnotcov (he ▸ hx)
        exact bne_iff_ne.mpr hxc
      · show covOK (c :: s.tableau.filter (fun x => x != c)) s.history
        refine covOK_mono ?_ h.cov
        intro x hx
        by_cases hxc : x = c
        · rw [hxc]
          exact List.mem_cons_self _ _
        · exact List.mem_cons_of_mem _ (List.mem_filter.mpr ⟨hx, bne_iff_ne.mpr hxc⟩)

/-- Unfolding `chainOK` at a cons cell. -/
lemma chainOK_cons {w : Nat} {r : MoveRecord} {t : List MoveRecord} :
    chainOK w (r :: t) ↔ r.playedCard = w ∧ chainOK r.previousWaste t := Iff.rfl

/-- Unfolding `covOK` at a cons cell. -/
lemma covOK_cons {tab : List Nat} {r : MoveRecord} {t : List MoveRecord} :
    covOK tab (r :: t) ↔ (∀ x ∈ r.coveredCards, x ∈ tab) ∧
      covOK (match r.mtype with
             | MoveType.tableau => r.playedCard :: tab
             | MoveType.stock => tab) t := Iff.rfl

/-- Undoing a move preserves the invariant. -/
lemma inv_undo {L : LevelData} {s : GameState} (h : GameInv L s) : GameInv L (undoMove s) := by
  cases hh : s.history with
  | nil =>
    have hnoop : undoMove s = s := by
      unfold undoMove
      rw [hh]
    rw [hnoop]
    exact h
  | cons r t =>
    by_cases hcoins : s.coins < 50
    · have hnoop : undoMove s = s := by
        unfold undoMove
        rw [hh]
        dsimp only
        rw [if_pos hcoins]
      rw [hnoop]
      exact h
    · obtain ⟨hnt, hns, hnD, htf, hsf, hwD⟩ := live_facts h.nodupLive
      have hchain := h.chain
      rw [hh, chainOK_cons] at hchain
      obtain ⟨hw, hct⟩ := hchain
      have hcov := h.cov
      rw [hh, covOK_cons] at hcov
      obtain ⟨hcovtab, hcovt⟩ := hcov
      have hrtop : r ∈ s.history := by rw [hh]; exact List.mem_cons_self _ _
      have hdisc : discarded s.history = r.previousWaste :: discarded t := by
        rw [hh]
        rfl
      cases hmt : r.mtype with
      | stock =>
        obtain ⟨hrc, hrf, hrorig⟩ := h.recStock r hrtop hmt
        rw [undoMove_stock hh hcoins hmt]
        constructor
        · show (s.tableau ++
            ((r.playedCard :: s.stockPile) ++ (r.previousWaste :: discarded t))).Perm _
          refine List.Perm.trans perm_live_undo_stock ?_
          have hls : liveList s = s.tableau ++
              (s.stockPile ++ (r.playedCard :: (r.previousWaste :: discarded t))) := by
            unfold liveList
            rw [hdisc, hw]
          rw [← hls]
          exact h.perm
        · exact hct
        · intro d hd hcb
          dsimp only at hd hcb ⊢
          by_cases hdr : d = r.playedCard
          · exfalso
            rw [hw] at hdr
            exact (htf d hd).2.1 hdr
          · rw [if_neg hdr]
            exact h.face d hd hcb
        · intro r2 hr2 hmt2
          dsimp only at hr2
          have hr2old : r2 ∈ s.history := by rw [hh]; exact List.mem_cons_of_mem _ hr2
          obtain ⟨h1, h2, h3, h4⟩ := h.recTab r2 hr2old hmt2
          refine ⟨h1, ?_, h3, h4⟩
          dsimp only
          have hr2p : r2.playedCard ≠ r.playedCard := by
            have hmem := chainOK_played_mem hct r2 hr2
            intro he
            rw [he, hw] at hmem
            rw [← hdisc] at hmem
            exact hwD hmem
          rw [if_neg hr2p]
          exact h2
        · intro r2 hr2 hmt2
          dsimp only at hr2
          exact h.recStock r2 (by rw [hh]; exact List.mem_cons_of_mem _ hr2) hmt2
        · exact h.origTab
        · intro d hd
          dsimp only at hd
          rcases List.mem_cons.mp hd with rfl | hd
          · exact hrorig
          · exact h.origStock d hd
        · rw [hmt] at hcovt
          exact hcovt
      | tableau =>
        obtain ⟨hcbr, hfur, hfl, horig⟩ := h.recTab r hrtop hmt
        rw [hmt] at hcovt
        have hrpnt : r.playedCard ∉ s.tableau := by
          intro hmem
          exact (htf r.playedCard hmem).2.1 hw
        rw [undoMove_tableau hh hcoins hmt]
        constructor
        · show ((s.tableau ++ [r.playedCard]) ++
            (s.stockPile ++ (r.previousWaste :: discarded t))).Perm _
          refine List.Perm.trans perm_live_undo_tab ?_
          have hls : liveList s = s.tableau ++
              (s.stockPile ++ (r.playedCard :: (r.previousWaste :: discarded t))) := by
            unfold liveList
            rw [hdisc, hw]
          rw [← hls]
          exact h.perm
        · exact hct
        · intro d hd hcb
          dsimp only at hd hcb ⊢
          rcases List.mem_append.mp hd with hdt | hdr
          · by_cases hdcov : d ∈ r.coveredCards
            · exfalso
              have hcount : r.coveredCards.count d ≠ 0 :=
                fun h0 => (List.count_eq_zero.mp h0) hdcov
              rcases List.append_eq_nil.mp hcb with ⟨-, hrep⟩
              exact hcount (by simpa using congrArg List.length hrep)
            · have hcount : r.coveredCards.count d = 0 := List.count_eq_zero.mpr hdcov
              rw [hcount, List.replicate_zero, List.append_nil] at hcb
              have hdflip : d ∉ r.flippedCards := fun hm => hdcov (hfl d hm)
              rw [if_neg hdflip]
              exact h.face d hdt hcb
          · have hdr' : d = r.playedCard := by simpa using hdr
            have hdcov : d ∉ r.coveredCards := fun hm => hrpnt (hdr' ▸ hcovtab d hm)
            have hdflip : d ∉ r.flippedCards := fun hm => hdcov (hfl d hm)
            rw [if_neg hdflip, hdr']
            exact hfur
        · intro r2 hr2 hmt2
          dsimp only at hr2
          have hr2old : r2 ∈ s.history := by rw [hh]; exact List.mem_cons_of_mem _ hr2
          obtain ⟨h1, h2, h3, h4⟩ := h.recTab r2 hr2old hmt2
          have hr2pnt : r2.playedCard ∉ s.tableau := by
            intro hmem
            have h5 := (htf r2.playedCard hmem).2.2
            have hmem2 := chainOK_played_mem hct r2 hr2
            exact h5 (hdisc ▸ hmem2)
          have hr2cov : r2.playedCard ∉ r.coveredCards := fun hm => hr2pnt (hcovtab _ hm)
          have hcount : r.coveredCards.count r2.playedCard = 0 := List.count_eq_zero.mpr hr2cov
          have hr2flip : r2.playedCard ∉ r.flippedCards := fun hm => hr2cov (hfl _ hm)
          refine ⟨?_, ?_, h3, h4⟩
          · dsimp only
            rw [hcount, List.replicate_zero, List.append_nil]
            exact h1
          · dsimp only
            rw [if_neg hr2flip]
            exact h2
        · intro r2 hr2 hmt2
          dsimp only at hr2
          exact h.recStock r2 (by rw [hh]; exact List.mem_cons_of_mem _ hr2) hmt2
        · intro d hd
          dsimp only at hd
          rcases List.mem_append.mp hd with hdt | hdr
          · exact h.origTab d hdt
          · rw [show d = r.playedCard by simpa using hdr]
            exact horig
        · exact h.origStock
        · show covOK (s.tableau ++ [r.playedCard]) t
          refine covOK_mono ?_ hcovt
          intro x hx
          rcases List.mem_cons.mp hx with rfl | hx
          · exact List.mem_append.mpr (Or.inr (List.mem_cons_self _ _))
          · exact List.mem_append.mpr (Or.inl hx)

/-- Every reachable state satisfies the invariant. -/
lemma inv_reachable {L : LevelData} {s : GameState} (h : Reachable L s) : GameInv L s := by
  induction h with
  | init => exact inv_init L
  | play c hmem hprev ih => exact inv_play hmem ih
  | draw hprev ih => exact inv_draw ih
  | undo hprev ih => exact inv_undo ih

/-! ### C2: the partition of the level's card set -/

/-- Counterexample to C2 as stated: in the demo level, after the single legal
play of card 1, the tableau, the stock pile and the waste card together hold
only 3 of the level's 4 cards — the previous waste card has left all three
locations (it survives only inside the history record), so
`tableau.length + stockPile.length + 1 = totalCardsInLevel` fails. -/
theorem c2_partition_cex :
    Reachable demoLevel (handleCardClick (initState demoLevel) 1) ∧
    ¬((handleCardClick (initState demoLevel) 1).tableau.length +
      (handleCardClick (initState demoLevel) 1).stockPile.length + 1 =
        totalCards demoLevel) :=
  ⟨Reachable.play 1 (by decide) Reachable.init, by decide⟩

/-- C2 (amended): at every reachable state, the tableau, the stock pile, the
waste card and one displaced previous-waste card per history record together
are exactly the level's card set:
`tableau.length + stockPile.length + 1 + history.length = totalCardsInLevel`,
and no card identity appears twice across the tableau, the stock pile and the
waste card. -/
theorem c2_partition_amended (L : LevelData) (s : GameState) (h : Reachable L s) :
    s.tableau.length + s.stockPile.length + 1 + s.history.length = totalCards L ∧
    (s.tableau ++ (s.stockPile ++ [s.wasteCard])).Nodup := by
  have hi := inv_reachable h
  constructor
  · have hlen := hi.perm.length_eq
    unfold liveList at hlen
    simp only [List.length_append, List.length_cons, discarded, List.length_map,
      List.length_range] at hlen
    omega
  · have hnd := hi.nodupLive
    have h1 : [s.wasteCard].Sublist (s.wasteCard :: discarded s.history) :=
      (List.cons_sublist_cons).mpr (List.nil_sublist _)
    have hsub : (s.tableau ++ (s.stockPile ++ [s.wasteCard])).Sublist (liveList s) :=
      (h1.append_left s.stockPile).append_left s.tableau
    exact hsub.nodup hnd

/-- Witness for the amended C2 at a reachable state of the demo level. -/
theorem c2_partition_amended_witness :
    Reachable demoLevel (initState demoLevel) ∧
    ((initState demoLevel).tableau.length + (initState demoLevel).stockPile.length + 1 +
      (initState demoLevel).history.length = totalCards demoLevel ∧
     ((initState demoLevel).tableau ++
       ((initState demoLevel).stockPile ++ [(initState demoLevel).wasteCard])).Nodup) :=
  ⟨Reachable.init, c2_partition_amended demoLevel (initState demoLevel) Reachable.init⟩

/-! ### C9: uncovered tableau cards are face up -/

/-- C9: in every reachable board state, every tableau card whose `coveredBy`
list is empty is face up — established by `buildBoard`, preserved by plays
(newly uncovered cards are flipped face up) and by undos (cards flipped back
face down are simultaneously re-covered). -/
theorem c9_uncovered_face_up (L : LevelData) (s : GameState) (h : Reachable L s) :
    ∀ c ∈ s.tableau, s.coveredBy c = [] → s.isFaceUp c = true :=
  (inv_reachable h).face

/-- Witness for C9 at a reachable state of the demo level reached by one
play (which uncovers and flips card 0). -/
theorem c9_uncovered_face_up_witness :
    Reachable demoLevel (handleCardClick (initState demoLevel) 1) ∧
    (∀ c ∈ (handleCardClick (initState demoLevel) 1).tableau,
      (handleCardClick (initState demoLevel) 1).coveredBy c = [] →
      (handleCardClick (initState demoLevel) 1).isFaceUp c = true) :=
  ⟨Reachable.play 1 (by decide) Reachable.init,
   c9_uncovered_face_up demoLevel (handleCardClick (initState demoLevel) 1)
     (Reachable.play 1 (by decide) Reachable.init)⟩

/-! ### Scene manager transition machine (managers/SceneManager.ts)

`changeScene` is an async method with a single suspension point, the
`await scene.create()` on line 71 (the recursive `await` in the `finally`
block re-enters `changeScene`, which itself runs synchronously up to its own
`create` await).  The single-threaded event-loop execution is modelled by a
configuration holding the manager's fields, the scene whose `create()` is
currently awaited, and a log of lifecycle callback invocations:

* `requestScene` models a call to `changeScene(scene)`: if a transition is in
  flight it stores the scene as the single pending transition (overwriting a
  previous one) and returns; otherwise it runs the synchronous first half
  (exit/detach/destroy the current scene, attach the new one, call its
  `create`) up to the await point.
* `resolveCreate ok` models the awaited `create()` promise settling (`ok`
  false = it threw).  The `finally` block clears `isChanging` and, if a
  transition is pending, re-enters `changeScene`; the returned flag records
  whether the exception propagates out of the original `changeScene` call
  (the `catch` on lines 74‑76 rethrows). -/

/-- A lifecycle callback invocation of a scene (identified by id). -/
inductive LEvent where
  | createCall : Nat → LEvent
  | exitCall : Nat → LEvent
  | destroyCall : Nat → LEvent
deriving DecidableEq, Repr

/-- The fields of `SceneManager`: `currentScene`, `isChanging`,
`pendingTransition` (SceneManager.ts lines 18‑23). -/
structure SMState where
  currentScene : Option Nat
  isChanging : Bool
  pendingTransition : Option Nat
deriving DecidableEq, Repr

/-- An event-loop configuration: manager state, the scene whose `create()` is
being awaited (if any), and the log of lifecycle callbacks run so far. -/
structure SMConfig where
  mgr : SMState
  running : Option Nat
  log : List LEvent
deriving DecidableEq, Repr

/-- The synchronous first half of `changeScene` (lines 56‑71): mark
`isChanging`, exit/detach/destroy the current scene, make the new scene
current, call its `create()` and suspend awaiting it. -/
def firstHalf (s2 : Nat) (c : SMConfig) : SMConfig :=
  let exitLog : List LEvent :=
    match c.mgr.currentScene with
    | some c1 => [LEvent.exitCall c1, LEvent.destroyCall c1]
    | none => []
  { mgr := { currentScene := some s2
             isChanging := true
             pendingTransition := c.mgr.pendingTransition }
    running := some s2
    log := c.log ++ exitLog ++ [LEvent.createCall s2] }

/-- A call to `changeScene(s2)` (lines 49‑56): queue if already changing,
otherwise start the transition. -/
def requestScene (s2 : Nat) (c : SMConfig) : SMConfig :=
  if c.mgr.isChanging then
    { c with mgr := { c.mgr with pendingTransition := some s2 } }
  else firstHalf s2 c

/-- The awaited `create()` settles with success (`ok = true`) or an exception
(`ok = false`).  The `finally` block (lines 77‑86) clears `isChanging` and
re-enters `changeScene` on the pending transition if one was stored; the
second component is true iff the exception is rethrown out of the original
`changeScene` call (lines 74‑76). -/
def resolveCreate (ok : Bool) (c : SMConfig) : SMConfig × Bool :=
  match c.running with
  | none => (c, false)
  | some _ =>
    let m1 : SMState := { c.mgr with isChanging := false }
    match m1.pendingTransition with
    | none => ({ mgr := m1, running := none, log := c.log }, !ok)
    | some p =>
      (firstHalf p { mgr := { m1 with pendingTransition := none }
                     running := none
                     log := c.log }, !ok)

/-- The C3 scenario: scene 1 is active and idle; a transition to scene 2 is
requested and suspends in scene 2's `create()`; a transition to scene 3 is
requested while in flight; scene 2's `create` then resolves, and finally
scene 3's `create` resolves. -/
def smScenario : SMConfig :=
  (resolveCreate true
    (resolveCreate true
      (requestScene 3
        (requestScene 2 ⟨⟨some 1, false, none⟩, none, []⟩))).1).1

/-- A configuration with a transition in flight (awaiting scene 1's create)
and an earlier pending transition to scene 7. -/
def inflightConfig : SMConfig := ⟨⟨some 1, true, some 7⟩, some 1, []⟩

/-- C3: (general coalescing) a `changeScene` request while a transition is in
flight only overwrites the single pending transition — current scene, log and
awaited create are untouched; and in the concrete S1→S2→S3 scenario, after
all transitions settle exactly scene 3 is active, nothing is pending or in
flight, and scene 2's `create`, `exit` and `destroy` callbacks each ran
exactly once. -/
theorem c3_transition_coalescing (cfg : SMConfig) (s3 : Nat)
    (h : cfg.mgr.isChanging = true) :
    ((requestScene s3 cfg).mgr.pendingTransition = some s3 ∧
     (requestScene s3 cfg).mgr.currentScene = cfg.mgr.currentScene ∧
     (requestScene s3 cfg).mgr.isChanging = true ∧
     (requestScene s3 cfg).running = cfg.running ∧
     (requestScene s3 cfg).log = cfg.log) ∧
    (smScenario.mgr.currentScene = some 3 ∧
     smScenario.mgr.isChanging = false ∧
     smScenario.mgr.pendingTransition = none ∧
     smScenario.running = none ∧
     smScenario.log.count (LEvent.createCall 2) = 1 ∧
     smScenario.log.count (LEvent.exitCall 2) = 1 ∧
     smScenario.log.count (LEvent.destroyCall 2) = 1) := by
  constructor
  · unfold requestScene
    rw [if_pos h]
    exact ⟨rfl, rfl, h, rfl, rfl⟩
  · refine ⟨?_, ?_, ?_, ?_, ?_, ?_, ?_⟩ <;> decide

/-- Witness for C3 at a concrete in-flight configuration. -/
theorem c3_transition_coalescing_witness :
    inflightConfig.mgr.isChanging = true ∧
    (((requestScene 9 inflightConfig).mgr.pendingTransition = some 9 ∧
      (requestScene 9 inflightConfig).mgr.currentScene = inflightConfig.mgr.currentScene ∧
      (requestScene 9 inflightConfig).mgr.isChanging = true ∧
      (requestScene 9 inflightConfig).running = inflightConfig.running ∧
      (requestScene 9 inflightConfig).log = inflightConfig.log) ∧
     (smScenario.mgr.currentScene = some 3 ∧
      smScenario.mgr.isChanging = false ∧
      smScenario.mgr.pendingTransition = none ∧
      smScenario.running = none ∧
      smScenario.log.count (LEvent.createCall 2) = 1 ∧
      smScenario.log.count (LEvent.exitCall 2) = 1 ∧
      smScenario.log.count (LEvent.destroyCall 2) = 1)) :=
  ⟨rfl, c3_transition_coalescing inflightConfig 9 rfl⟩

/-- A configuration awaiting scene 5's `create()` with nothing pending. -/
def awaitingConfig : SMConfig := ⟨⟨some 5, true, none⟩, some 5, []⟩

/-- C8: if the awaited `create()` throws while no transition is pending, the
exception propagates out of the `changeScene` call (the `catch` block
rethrows it) and the `isChanging` flag is cleared by the `finally` block, so
the manager is not stuck mid-transition. -/
theorem c8_create_failure (cfg : SMConfig) (s2 : Nat)
    (hrun : cfg.running = some s2) (hp : cfg.mgr.pendingTransition = none) :
    (resolveCreate false cfg).2 = true ∧
    ((resolveCreate false cfg).1).mgr.isChanging = false := by
  obtain ⟨⟨cur, ch, pend⟩, run, log⟩ := cfg
  simp only at hrun hp
  subst hp
  unfold resolveCreate
  rw [hrun]
  exact ⟨rfl, rfl⟩

/-- Witness for C8 at a concrete configuration awaiting scene 5's create. -/
theorem c8_create_failure_witness :
    awaitingConfig.running = some 5 ∧
    awaitingConfig.mgr.pendingTransition = none ∧
    ((resolveCreate false awaitingConfig).2 = true ∧
     ((resolveCreate false awaitingConfig).1).mgr.isChanging = false) :=
  ⟨rfl, rfl, c8_create_failure awaitingConfig 5 rfl rfl⟩

/-! ### Layout system (LayoutSystem.ts)

JavaScript number arithmetic is modelled with exact rationals.  (For the
concrete viewport checked below the double-precision computation is also
exact: every intermediate rounding error stays below half an ulp of the exact
result, so the claimed values are what the source produces.) -/

/-- Design width (LayoutSystem.ts line 6). -/
def DESIGN_W : ℚ := 1920

/-- Design height (LayoutSystem.ts line 7). -/
def DESIGN_H : ℚ := 1080

/-- The `LayoutState` record (LayoutSystem.ts lines 12‑33). -/
structure LayoutState where
  scaleFit : ℚ
  offsetX : ℚ
  offsetY : ℚ
  vx : ℚ
  vy : ℚ
  vw : ℚ
  vh : ℚ
  screenWidth : ℚ
  screenHeight : ℚ
  scaleFill : ℚ
deriving DecidableEq, Repr

/-- `LayoutSystem.computeLayout` (lines 68‑106), as a pure function of the
screen size it reads from the application. -/
def computeLayout (screenWidth screenHeight : ℚ) : LayoutState :=
  let scaleX := screenWidth / DESIGN_W
  let scaleY := screenHeight / DESIGN_H
  let scaleFit := min scaleX scaleY
  let fitWidth := DESIGN_W * scaleFit
  let fitHeight := DESIGN_H * scaleFit
  let offsetX := (screenWidth - fitWidth) / 2
  let offsetY := (screenHeight - fitHeight) / 2
  let scaleFill := max scaleX scaleY
  let vw := screenWidth / scaleFit
  let vh := screenHeight / scaleFit
  let vx := (DESIGN_W - vw) / 2
  let vy := (DESIGN_H - vh) / 2
  { scaleFit := scaleFit
    offsetX := offsetX
    offsetY := offsetY
    vx := vx
    vy := vy
    vw := vw
    vh := vh
    screenWidth := screenWidth
    screenHeight := screenHeight
    scaleFill := scaleFill }

/-- C6: for every positive viewport, `computeLayout` returns
`scaleFit = min(w/1920, h/1080)`, the centering offsets
`(w − 1920·scaleFit)/2` and `(h − 1080·scaleFit)/2`, and
`scaleFill = max(w/1920, h/1080)`; for the 800×600 viewport this gives
exactly `scaleFit = 5/12`, `offsetX = 0` and `offsetY = 75`. -/
theorem c6_layout_fit (w h : ℚ) (hw : 0 < w) (hh : 0 < h) :
    (computeLayout w h).scaleFit = min (w / 1920) (h / 1080) ∧
    (computeLayout w h).offsetX = (w - 1920 * min (w / 1920) (h / 1080)) / 2 ∧
    (computeLayout w h).offsetY = (h - 1080 * min (w / 1920) (h / 1080)) / 2 ∧
    (computeLayout w h).scaleFill = max (w / 1920) (h / 1080) ∧
    (computeLayout 800 600).scaleFit = 5 / 12 ∧
    (computeLayout 800 600).offsetX = 0 ∧
    (computeLayout 800 600).offsetY = 75 := by
  refine ⟨rfl, rfl, rfl, rfl, ?_, ?_, ?_⟩ <;>
    norm_num [computeLayout, DESIGN_W, DESIGN_H, min_def, max_def]

/-- Witness for C6 at the 800×600 viewport. -/
theorem c6_layout_fit_witness :
    (0 : ℚ) < 800 ∧ (0 : ℚ) < 600 ∧
    ((computeLayout 800 600).scaleFit = min ((800 : ℚ) / 1920) ((600 : ℚ) / 1080) ∧
     (computeLayout 800 600).offsetX =
       (800 - 1920 * min ((800 : ℚ) / 1920) ((600 : ℚ) / 1080)) / 2 ∧
     (computeLayout 800 600).offsetY =
       (600 - 1080 * min ((800 : ℚ) / 1920) ((600 : ℚ) / 1080)) / 2 ∧
     (computeLayout 800 600).scaleFill = max ((800 : ℚ) / 1920) ((600 : ℚ) / 1080) ∧
     (computeLayout 800 600).scaleFit = 5 / 12 ∧
     (computeLayout 800 600).offsetX = 0 ∧
     (computeLayout 800 600).offsetY = 75) :=
  ⟨by decide, by decide, c6_layout_fit 800 600 (by decide) (by decide)⟩
